import Mathlib

/-!
Shallow embedding of the SaaS Opportunity Bot (Python) and proofs about it.

The repository scans Hacker News and Reddit for "pain point" text snippets,
classifies them by industry, scores and ranks them, and serves results through
a CLI (`main.py`) and a conversational agent (`agent/saas_agent.py`).

Python strings are modelled as Lean `String`s; Python string operations that
the code uses (`str.lower`, the `in` substring operator, slicing `s[:n]`,
`str.split()`, `str.isdigit`) are modelled as explicit functions over the
underlying character lists, so that everything is executable by the kernel.
Network fetches are modelled by passing the fetched data in as arguments.
-/

namespace SaaSBot

/-- Python `str.lower()` on a string, as a character list.
The repository only ever feeds ASCII keyword data through `lower`. -/
def pyLower (s : String) : List Char :=
  s.data.map Char.toLower

/-- Python's substring operator `needle in hay` over character lists. -/
def strIn (needle : List Char) : List Char → Bool
  | [] => needle.isEmpty
  | c :: rest => needle.isPrefixOf (c :: rest) || strIn needle rest

/-- Python slicing `s[:n]` (by characters / code points). -/
def pySlice (s : String) (n : Nat) : String :=
  ⟨s.data.take n⟩

/-- Python `str.isdigit()` for a word: nonempty and all characters digits. -/
def pyIsDigit (w : List Char) : Bool :=
  !w.isEmpty && w.all Char.isDigit

/-- Numeric value of a digit-only word, modelling Python `int(word)`. -/
def digitsToNat (w : List Char) : Nat :=
  w.foldl (fun n c => n * 10 + (c.toNat - 48)) 0

/-- Auxiliary for `pySplitWs`: accumulates the current word (reversed). -/
def pySplitWsAux : List Char → List Char → List (List Char)
  | [], acc => if acc.isEmpty then [] else [acc.reverse]
  | c :: rest, acc =>
    if c.isWhitespace then
      if acc.isEmpty then pySplitWsAux rest []
      else acc.reverse :: pySplitWsAux rest []
    else pySplitWsAux rest (c :: acc)

/-- Python `str.split()` with no argument: split on whitespace runs,
discarding empty words. -/
def pySplitWs (cs : List Char) : List (List Char) :=
  pySplitWsAux cs []

/-! ## config.py -/

/-- `config.INDUSTRIES`: industry → keyword list, in declaration order
(Python dicts preserve insertion order). -/
def INDUSTRIES : List (String × List String) :=
  [("finance", ["fintech", "banking", "trading", "investment", "accounting",
      "bookkeeping", "tax", "CFO", "financial"]),
   ("legal", ["lawyer", "attorney", "law firm", "legal tech", "contract",
      "compliance", "paralegal"]),
   ("healthcare", ["medical", "healthcare", "clinic", "hospital", "doctor",
      "patient", "HIPAA", "telehealth"]),
   ("real_estate", ["real estate", "realtor", "property", "landlord",
      "rental", "mortgage", "broker"]),
   ("saas_b2b", ["SaaS", "B2B", "enterprise", "startup", "founder", "CEO",
      "CTO", "software company"]),
   ("agencies", ["agency", "marketing agency", "design agency", "consultant",
      "freelancer", "client work"]),
   ("ecommerce", ["ecommerce", "shopify", "amazon seller", "dropshipping",
      "inventory", "fulfillment"]),
   ("developers", ["developer", "engineer", "devops", "API", "programming",
      "software development"])]

/-- `config.PAIN_SIGNALS`, in declaration order. -/
def PAIN_SIGNALS : List String :=
  ["I wish there was",
   "I\x27d pay for",
   "shut up and take my money",
   "is there a tool",
   "looking for a solution",
   "so frustrating",
   "waste so much time",
   "hate doing this manually",
   "anyone know a tool",
   "willing to pay",
   "need a better way",
   "current solution sucks",
   "can\x27t find anything",
   "would save me hours",
   "tired of",
   "there has to be a better way",
   "manual process",
   "spreadsheet hell",
   "pain point",
   "bottleneck"]

/-- `config.SUBREDDITS`, in declaration order. -/
def SUBREDDITS : List String :=
  ["entrepreneur", "startups", "SaaS", "smallbusiness", "Bookkeeping",
   "realestate", "freelance", "webdev", "devops", "sysadmin", "marketing",
   "digital_marketing", "ecommerce", "shopify", "lawfirm", "medicine",
   "healthcare", "accounting", "consulting", "agency"]

/-- `config.HN_MIN_COMMENTS`. -/
def HN_MIN_COMMENTS : Int := 5

/-! ## Keyword matchers

`scrapers/hn_scraper.py` and `scrapers/reddit_scraper.py` each define their
own copy of `contains_pain_signal` and `identify_industry`.  The HN copies
begin with an `if not text:` falsiness guard (catching both `None` and `""`);
the Reddit copies do not and start with `text.lower()` directly, so calling
them with `None` raises `AttributeError`.  A possibly-`None` argument is
modelled as `Option String`; a raised exception is modelled as `none` in the
result. -/

namespace hn_scraper

/-- `hn_scraper.contains_pain_signal`.  The `if not text:` guard handles both
`None` and the empty string. -/
def contains_pain_signal (text : Option String) : Bool × List String :=
  match text with
  | none => (false, [])
  | some t =>
    if t = "" then (false, [])
    else
      let text_lower := pyLower t
      let found_signals := PAIN_SIGNALS.foldl
        (fun acc signal =>
          if strIn (pyLower signal) text_lower then acc ++ [signal] else acc) []
      (decide (found_signals.length > 0), found_signals)

/-- `hn_scraper.identify_industry`.  The inner keyword loop `break`s on the
first matching keyword, i.e. the industry is appended iff any of its keywords
matches. -/
def identify_industry (text : Option String) : List String :=
  match text with
  | none => []
  | some t =>
    if t = "" then []
    else
      let text_lower := pyLower t
      INDUSTRIES.foldl
        (fun acc p =>
          if p.2.any (fun keyword => strIn (pyLower keyword) text_lower) then
            acc ++ [p.1]
          else acc) []

end hn_scraper

namespace reddit_scraper

/-- `reddit_scraper.contains_pain_signal` (no falsiness guard; typed domain
is `str`). -/
def contains_pain_signal (text : String) : Bool × List String :=
  let text_lower := pyLower text
  let found_signals := PAIN_SIGNALS.foldl
    (fun acc signal =>
      if strIn (pyLower signal) text_lower then acc ++ [signal] else acc) []
  (decide (found_signals.length > 0), found_signals)

/-- `reddit_scraper.identify_industry` (no falsiness guard). -/
def identify_industry (text : String) : List String :=
  let text_lower := pyLower text
  INDUSTRIES.foldl
    (fun acc p =>
      if p.2.any (fun keyword => strIn (pyLower keyword) text_lower) then
        acc ++ [p.1]
      else acc) []

/-- `reddit_scraper.contains_pain_signal` applied to a possibly-`None`
argument: `None.lower()` raises `AttributeError`, modelled as `none`. -/
def contains_pain_signal_opt : Option String → Option (Bool × List String)
  | none => none
  | some t => some (contains_pain_signal t)

/-- `reddit_scraper.identify_industry` applied to a possibly-`None`
argument: `None.lower()` raises `AttributeError`, modelled as `none`. -/
def identify_industry_opt : Option String → Option (List String)
  | none => none
  | some t => some (identify_industry t)

end reddit_scraper

/-! ## Generic foldl-append lemma

Both matchers build their result list by appending matching entries in
configured order; that loop is a `filter`. -/

theorem foldl_append_filter_map {α β : Type} (p : α → Bool) (f : α → β)
    (l : List α) (acc : List β) :
    l.foldl (fun acc x => if p x then acc ++ [f x] else acc) acc
      = acc ++ (l.filter p).map f := by
  induction l generalizing acc with
  | nil => simp
  | cons a t ih =>
    by_cases h : p a <;> simp [List.filter_cons, h, ih]

theorem foldl_append_filter {α : Type} (p : α → Bool) (l : List α) (acc : List α) :
    l.foldl (fun acc x => if p x then acc ++ [x] else acc) acc = acc ++ l.filter p := by
  have h := foldl_append_filter_map p id l acc
  simpa using h

/-- The Reddit matcher loop is a `filter` of the configured signal list. -/
theorem reddit_cps_eq (t : String) :
    reddit_scraper.contains_pain_signal t
      = (decide ((PAIN_SIGNALS.filter fun s => strIn (pyLower s) (pyLower t)).length > 0),
         PAIN_SIGNALS.filter fun s => strIn (pyLower s) (pyLower t)) := by
  simp [reddit_scraper.contains_pain_signal, foldl_append_filter]

/-- The HN matcher agrees with the Reddit matcher on every actual string:
its extra emptiness guard returns `(false, [])`, which is also what the
filter computes on the empty string. -/
theorem hn_cps_eq_reddit (t : String) :
    hn_scraper.contains_pain_signal (some t) = reddit_scraper.contains_pain_signal t := by
  by_cases h : t = ""
  · subst h; decide
  · simp [hn_scraper.contains_pain_signal, reddit_scraper.contains_pain_signal, h]

/-- The Reddit industry loop is a key projection of a `filter` of `INDUSTRIES`. -/
theorem reddit_ii_eq (t : String) :
    reddit_scraper.identify_industry t
      = ((INDUSTRIES.filter fun p =>
            p.2.any fun keyword => strIn (pyLower keyword) (pyLower t)).map Prod.fst) := by
  have h := foldl_append_filter_map
    (fun p : String × List String => p.2.any fun keyword => strIn (pyLower keyword) (pyLower t))
    Prod.fst INDUSTRIES []
  simpa [reddit_scraper.identify_industry] using h

theorem hn_ii_eq_reddit (t : String) :
    hn_scraper.identify_industry (some t) = reddit_scraper.identify_industry t := by
  by_cases h : t = ""
  · subst h; decide
  · simp [hn_scraper.identify_industry, reddit_scraper.identify_industry, h]

/-- C3: for every text input, `contains_pain_signal` (both scraper copies,
which agree on strings) returns `true` iff the returned match list is
non-empty; the match list is always a sublist of the configured
`PAIN_SIGNALS` list (a subset preserving configured order), and a signal is
in the list iff it is a configured signal occurring case-insensitively as a
substring of the text. -/
theorem contains_pain_signal_spec (t : String) :
    hn_scraper.contains_pain_signal (some t) = reddit_scraper.contains_pain_signal t
    ∧ ((reddit_scraper.contains_pain_signal t).1 = true
        ↔ (reddit_scraper.contains_pain_signal t).2 ≠ [])
    ∧ List.Sublist (reddit_scraper.contains_pain_signal t).2 PAIN_SIGNALS
    ∧ (∀ s, s ∈ (reddit_scraper.contains_pain_signal t).2
        ↔ s ∈ PAIN_SIGNALS ∧ strIn (pyLower s) (pyLower t) = true) := by
  refine ⟨hn_cps_eq_reddit t, ?_, ?_, ?_⟩
  · rw [reddit_cps_eq]
    simp [List.length_pos]
  · rw [reddit_cps_eq]
    exact List.filter_sublist _
  · intro s
    rw [reddit_cps_eq]
    simp [List.mem_filter]

/-- C4: for every text input, `identify_industry` (both scraper copies, which
agree on strings) returns each configured industry at most once, and the
result equals the configured industry declaration order restricted to the
industries with a matching keyword. -/
theorem identify_industry_spec (t : String) :
    hn_scraper.identify_industry (some t) = reddit_scraper.identify_industry t
    ∧ reddit_scraper.identify_industry t
        = ((INDUSTRIES.filter fun p =>
              p.2.any fun keyword => strIn (pyLower keyword) (pyLower t)).map Prod.fst)
    ∧ (∀ name : String, (reddit_scraper.identify_industry t).count name ≤ 1) := by
  refine ⟨hn_ii_eq_reddit t, reddit_ii_eq t, ?_⟩
  intro name
  rw [reddit_ii_eq]
  have hsub : List.Sublist ((INDUSTRIES.filter fun p =>
      p.2.any fun keyword => strIn (pyLower keyword) (pyLower t)).map Prod.fst)
      ((INDUSTRIES.map Prod.fst)) :=
    (List.filter_sublist INDUSTRIES).map Prod.fst
  have hnd : (INDUSTRIES.map Prod.fst).Nodup := by decide
  exact le_trans (hsub.count_le name) (List.nodup_iff_count_le_one.mp hnd name)

/-- C5 counterexample: the Reddit scraper's matchers do not return normally
on `None` input — `None.lower()` raises `AttributeError` (modelled as
`none`), so they do not yield `(False, [])` / `[]`. -/
theorem reddit_matchers_none_raises :
    reddit_scraper.contains_pain_signal_opt none ≠ some (false, [])
    ∧ reddit_scraper.identify_industry_opt none ≠ some [] := by decide

/-- C5 amended: the HN scraper's matchers return `(False, [])` / `[]` on both
empty-string and `None` input (they have an `if not text:` guard); the Reddit
scraper's matchers return `(False, [])` / `[]` on empty-string input, but on
`None` they raise `AttributeError` instead of returning. -/
theorem matchers_empty_none_behavior :
    hn_scraper.contains_pain_signal none = (false, [])
    ∧ hn_scraper.contains_pain_signal (some "") = (false, [])
    ∧ hn_scraper.identify_industry none = []
    ∧ hn_scraper.identify_industry (some "") = []
    ∧ reddit_scraper.contains_pain_signal_opt (some "") = some (false, [])
    ∧ reddit_scraper.identify_industry_opt (some "") = some []
    ∧ reddit_scraper.contains_pain_signal_opt none = none
    ∧ reddit_scraper.identify_industry_opt none = none := by decide

/-! ## Opportunity records and the scorer

An opportunity record is the dict yielded by the extractors.  Keys that are
present only on some records (`subreddit`, `num_comments`, `priority_score`)
are modelled as `Option` fields, `none` meaning the key is absent. -/

structure Opportunity where
  source : String
  subreddit : Option String := none
  title : String
  text : String
  url : String
  score : Int
  num_comments : Option Int := none
  pain_signals : List String
  industries : List String
  type : String
  priority_score : Option Int := none
deriving DecidableEq

/-- `score_opportunity` (identical copies in `main.py` and
`agent/saas_agent.py`): sequential accumulation with two `if`/`elif`
ladders.  `opp.get("score", 0)` / `opp.get("num_comments", 0)` are the
field values with default `0` for an absent key. -/
def score_opportunity (opp : Opportunity) : Int :=
  let score : Int := 0
  let score := score + (opp.pain_signals.length : Int) * 10
  let score := score + (opp.industries.length : Int) * 5
  let post_score := opp.score
  let score :=
    if post_score > 100 then score + 20
    else if post_score > 50 then score + 10
    else if post_score > 10 then score + 5
    else score
  let num_comments := opp.num_comments.getD 0
  let score :=
    if num_comments > 50 then score + 15
    else if num_comments > 20 then score + 10
    else if num_comments > 5 then score + 5
    else score
  score

/-- Engagement bucket as the spec words it: post score into {0,5,10,20}. -/
def engagement_bucket (s : Int) : Int :=
  if s > 100 then 20 else if s > 50 then 10 else if s > 10 then 5 else 0

/-- Comment bucket as the spec words it: comment count into {0,5,10,15}. -/
def comment_bucket (n : Int) : Int :=
  if n > 50 then 15 else if n > 20 then 10 else if n > 5 then 5 else 0

/-- The scenario record of the spec: two pain signals, one industry,
score 150, 60 comments. -/
def scenario_opp : Opportunity :=
  { source := "hackernews", title := "t", text := "", url := "u", score := 150,
    num_comments := some 60, pain_signals := ["x", "y"],
    industries := ["finance"], type := "story" }

/-- C1: `score_opportunity` is exactly 10 times the number of pain signals
plus 5 times the number of industries plus the engagement bucket on the
record score plus the comment bucket on `num_comments` (default 0 when
absent); in particular the spec scenario record scores 60. -/
theorem score_opportunity_formula :
    (∀ opp : Opportunity,
      score_opportunity opp
        = 10 * (opp.pain_signals.length : Int) + 5 * (opp.industries.length : Int)
            + engagement_bucket opp.score + comment_bucket (opp.num_comments.getD 0))
    ∧ score_opportunity scenario_opp = 60 := by
  constructor
  · intro opp
    dsimp only [score_opportunity, engagement_bucket, comment_bucket]
    split_ifs <;> omega
  · decide

/-! ## The agent ranker: `run_scan` (agent/saas_agent.py)

`run_scan` pulls records lazily from `scan_hacker_news()`, scores each,
applies the optional industry filter, stops once `3 × limit` records are
collected, then stable-sorts descending by `priority_score` and truncates to
`limit`.  The extractor's lazy output sequence is passed in as a list.
Python's `list.sort` is a stable sort; with `reverse=True` it keeps equal
elements in input order, which is exactly `List.mergeSort` with the
comparison `key y ≤ key x`. -/

/-- Sets `opp["priority_score"] = score_opportunity(opp)`. -/
def with_priority (opp : Opportunity) : Opportunity :=
  { opp with priority_score := some (score_opportunity opp) }

/-- The `if industry_filter:` guard (falsy for `None` and `""`) followed by
the case-insensitive membership test on the record's industries. -/
def passes_filter (industry_filter : Option String) (opp : Opportunity) : Bool :=
  match industry_filter with
  | none => true
  | some f =>
    if f = "" then true
    else (opp.industries.map pyLower).contains (pyLower f)

/-- The collection loop of `run_scan`: score, filter, append, and `break`
once `len(opportunities) >= limit * 3`.  `count` is the number of records
collected so far. -/
def run_scan_collect (industry_filter : Option String) (cap : Nat) :
    List Opportunity → Nat → List Opportunity
  | [], _ => []
  | opp :: rest, count =>
    let opp := with_priority opp
    if passes_filter industry_filter opp then
      if count + 1 ≥ cap then [opp]
      else opp :: run_scan_collect industry_filter cap rest (count + 1)
    else run_scan_collect industry_filter cap rest count

/-- The sort key `x.get("priority_score", 0)`. -/
def priority_key (opp : Opportunity) : Int :=
  opp.priority_score.getD 0

/-- `run_scan(industry_filter, limit)` over a given extractor output. -/
def run_scan (extracted : List Opportunity) (industry_filter : Option String := none)
    (limit : Nat := 20) : List Opportunity :=
  let opportunities := run_scan_collect industry_filter (limit * 3) extracted 0
  (opportunities.mergeSort (fun x y => decide (priority_key y ≤ priority_key x))).take limit

/-- The collection loop only scores records and drops some of them: its
output is a subsequence of the scored extractor stream. -/
theorem run_scan_collect_sublist (fil : Option String) (cap : Nat)
    (l : List Opportunity) (n : Nat) :
    List.Sublist (run_scan_collect fil cap l n) (l.map with_priority) := by
  induction l generalizing n with
  | nil => simp [run_scan_collect]
  | cons o rest ih =>
    simp only [run_scan_collect, List.map_cons]
    by_cases hp : passes_filter fil (with_priority o)
    · rw [if_pos hp]
      by_cases hc : n + 1 ≥ cap
      · rw [if_pos hc]
        exact (List.nil_sublist _).cons₂ _
      · rw [if_neg hc]
        exact (ih (n + 1)).cons₂ _
    · rw [if_neg hp]
      exact (ih n).cons _

/-- Stability of the sort in `run_scan`: restricting the sorted list to the
records of one fixed priority score gives back exactly the corresponding
restriction of the input, in input order. -/
theorem mergeSort_filter_key (l : List Opportunity) (s : Int) :
    ((l.mergeSort fun x y => decide (priority_key y ≤ priority_key x)).filter
        fun r => decide (priority_key r = s))
      = l.filter fun r => decide (priority_key r = s) := by
  have trans : ∀ a b c : Opportunity,
      (fun x y => decide (priority_key y ≤ priority_key x)) a b
      → (fun x y => decide (priority_key y ≤ priority_key x)) b c
      → (fun x y => decide (priority_key y ≤ priority_key x)) a c := by
    intro a b c hab hbc
    simp only [decide_eq_true_eq] at hab hbc ⊢
    omega
  have total : ∀ a b : Opportunity,
      ((fun x y => decide (priority_key y ≤ priority_key x)) a b
        || (fun x y => decide (priority_key y ≤ priority_key x)) b a) := by
    intro a b
    simp only [Bool.or_eq_true, decide_eq_true_eq]
    omega
  have hpw : (l.filter fun r => decide (priority_key r = s)).Pairwise
      (fun x y => decide (priority_key y ≤ priority_key x) = true) := by
    apply List.pairwise_of_forall_mem_list
    intro a ha b hb
    have ha2 := (List.mem_filter.mp ha).2
    have hb2 := (List.mem_filter.mp hb).2
    simp only [decide_eq_true_eq] at ha2 hb2 ⊢
    omega
  have hsub : List.Sublist (l.filter fun r => decide (priority_key r = s))
      (l.mergeSort fun x y => decide (priority_key y ≤ priority_key x)) :=
    List.sublist_mergeSort trans total hpw (List.filter_sublist l)
  have hsub2 : List.Sublist (l.filter fun r => decide (priority_key r = s))
      ((l.mergeSort fun x y => decide (priority_key y ≤ priority_key x)).filter
        fun r => decide (priority_key r = s)) := by
    have heq : ((l.filter fun r => decide (priority_key r = s)).filter
        fun r => decide (priority_key r = s))
        = l.filter fun r => decide (priority_key r = s) := by
      apply List.filter_eq_self.mpr
      intro a ha
      exact (List.mem_filter.mp ha).2
    have h := hsub.filter (fun r => decide (priority_key r = s))
    rw [heq] at h
    exact h
  have hlen : ((l.mergeSort fun x y => decide (priority_key y ≤ priority_key x)).filter
        fun r => decide (priority_key r = s)).length
      = (l.filter fun r => decide (priority_key r = s)).length := by
    rw [← List.countP_eq_length_filter, ← List.countP_eq_length_filter]
    exact (List.mergeSort_perm l _).countP_eq _
  exact (hsub2.eq_of_length hlen.symm).symm

/-- C2: for every industry filter and limit, `run_scan` over any extractor
output returns at most `limit` records, sorted in non-increasing order of
`priority_score`; and among records with equal priority score the output is a
subsequence of the scored extractor stream, i.e. the relative order of equal
scores is the order in which the extractor produced them (stability). -/
theorem run_scan_ranked (extracted : List Opportunity)
    (industry_filter : Option String) (limit : Nat) :
    (run_scan extracted industry_filter limit).length ≤ limit
    ∧ (run_scan extracted industry_filter limit).Pairwise
        (fun a b => priority_key b ≤ priority_key a)
    ∧ ∀ s : Int,
        List.Sublist ((run_scan extracted industry_filter limit).filter
            fun r => decide (priority_key r = s))
          (extracted.map with_priority) := by
  refine ⟨?_, ?_, ?_⟩
  · simp only [run_scan, List.length_take]
    omega
  · have hs := @List.sorted_mergeSort Opportunity
      (fun x y : Opportunity => decide (priority_key y ≤ priority_key x))
      (by intro a b c hab hbc
          simp only [decide_eq_true_eq] at hab hbc ⊢
          omega)
      (by intro a b
          simp only [Bool.or_eq_true, decide_eq_true_eq]
          omega)
      (run_scan_collect industry_filter (limit * 3) extracted 0)
    have hp := hs.sublist (List.take_sublist limit _)
    exact hp.imp (fun h => of_decide_eq_true h)
  · intro s
    have h1 : List.Sublist ((run_scan extracted industry_filter limit).filter
          fun r => decide (priority_key r = s))
        (((run_scan_collect industry_filter (limit * 3) extracted 0).mergeSort
            fun x y => decide (priority_key y ≤ priority_key x)).filter
          fun r => decide (priority_key r = s)) := by
      simp only [run_scan]
      exact (List.take_sublist limit _).filter _
    rw [mergeSort_filter_key] at h1
    exact h1.trans (((List.filter_sublist _).trans
      (run_scan_collect_sublist industry_filter (limit * 3) extracted 0)))

/-! ## Intent parsing (agent/saas_agent.py) -/

structure Intent where
  action : String
  industry_filter : Option String
  limit : Nat
deriving DecidableEq

/-- Python `key.lower().replace("_", " ")` for the industry keys (the
replacement is of a single character). -/
def underscoreToSpace (cs : List Char) : List Char :=
  cs.map fun c => if c = '_' then ' ' else c

/-- `parse_user_intent(query)`: rule cascade over the lowercased query.
Defaults are `action="scan"`, `industry_filter=None`, `limit=10`.  The
industry check walks `INDUSTRIES.keys()` and `break`s on the first key whose
spaced or raw lowercased form occurs in the query; the limit check walks the
whitespace-split tokens and takes the first purely-numeric one, capped at
50. -/
def parse_user_intent (query : String) : Intent :=
  let query_lower := pyLower query
  let action :=
    if ["analyze", "analysis", "insights", "summarize", "summary"].any
        (fun word => strIn word.data query_lower) then "analyze"
    else if ["explain", "what is", "how does", "help"].any
        (fun word => strIn word.data query_lower) then "explain"
    else if ["list industries", "what industries", "available industries"].any
        (fun word => strIn word.data query_lower) then "list_industries"
    else if ["list signals", "what signals", "pain signals"].any
        (fun word => strIn word.data query_lower) then "list_signals"
    else "scan"
  let industry_filter :=
    (INDUSTRIES.find? fun p =>
      strIn (underscoreToSpace (pyLower p.1)) query_lower
        || strIn (pyLower p.1) query_lower).map Prod.fst
  let limit :=
    match (pySplitWs query_lower).find? pyIsDigit with
    | some word => min (digitsToNat word) 50
    | none => 10
  { action := action, industry_filter := industry_filter, limit := limit }

/-- C6 counterexample: on the query `"find 5 fintech opportunities"` the
parser does not set `industry_filter` to `"finance"` — it only ever matches
industry key names in the query, never the configured keywords such as
`"fintech"` — so the returned intent differs from the claimed one. -/
theorem parse_intent_fintech_no_filter :
    parse_user_intent "find 5 fintech opportunities"
      = { action := "scan", industry_filter := none, limit := 5 }
    ∧ parse_user_intent "find 5 fintech opportunities"
      ≠ { action := "scan", industry_filter := some "finance", limit := 5 } := by
  decide

/-- C6 amended: `parse_user_intent "find 5 fintech opportunities"` returns
`{action: "scan", industry_filter: None, limit: 5}`; only a configured
industry key name (not an industry keyword such as `"fintech"`) appearing in
the query sets `industry_filter`, e.g. the query
`"find 5 finance opportunities"` yields `industry_filter = "finance"`. -/
theorem parse_intent_keyword_vs_key :
    parse_user_intent "find 5 fintech opportunities"
      = { action := "scan", industry_filter := none, limit := 5 }
    ∧ parse_user_intent "find 5 finance opportunities"
      = { action := "scan", industry_filter := some "finance", limit := 5 } := by
  decide

/-! ## Hacker News items and the comment-tree walk

An HN item as fetched from the API.  `get_item(kid_id)` is a network fetch of
a child by id; it is modelled by embedding each child item directly in the
parent's `kids` list (fetches are assumed to succeed; a failed fetch only
removes items, which cannot break the depth bound claims). -/

inductive HNItem where
  | mk (id : Nat) (type : String) (deleted : Bool) (title : String)
      (text : String) (score : Int) (descendants : Int) (kids : List HNItem)

def HNItem.id : HNItem → Nat
  | .mk i _ _ _ _ _ _ _ => i

def HNItem.type : HNItem → String
  | .mk _ ty _ _ _ _ _ _ => ty

def HNItem.deleted : HNItem → Bool
  | .mk _ _ d _ _ _ _ _ => d

def HNItem.title : HNItem → String
  | .mk _ _ _ ti _ _ _ _ => ti

def HNItem.text : HNItem → String
  | .mk _ _ _ _ te _ _ _ => te

def HNItem.score : HNItem → Int
  | .mk _ _ _ _ _ sc _ _ => sc

def HNItem.descendants : HNItem → Int
  | .mk _ _ _ _ _ _ de _ => de

def HNItem.kids : HNItem → List HNItem
  | .mk _ _ _ _ _ _ _ k => k

theorem sizeOf_take_le {α : Type} [SizeOf α] (n : Nat) (l : List α) :
    sizeOf (l.take n) ≤ sizeOf l := by
  induction l generalizing n with
  | nil => cases n <;> simp
  | cons a t ih =>
    cases n with
    | zero => simp; omega
    | succ m =>
      have := ih m
      simp [List.take_succ_cons]
      omega

/-- The loop body of `hn_scraper.get_comments` over the (already truncated)
list of fetched children: keep each non-deleted comment, and when
`current_depth < max_depth` also recurse into it. -/
def get_comments_kids : List HNItem → Nat → Nat → List HNItem
  | [], _, _ => []
  | kid :: rest, max_depth, current_depth =>
    (if kid.type = "comment" ∧ kid.deleted = false then
      kid :: (if current_depth < max_depth then
        get_comments_kids (kid.kids.take 20) max_depth (current_depth + 1)
      else [])
    else [])
    ++ get_comments_kids rest max_depth current_depth
termination_by l => sizeOf l
decreasing_by
  · rcases kid with ⟨i, ty, d, ti, te, sc, de, k⟩
    have h := sizeOf_take_le 20 k
    simp [HNItem.kids] at h ⊢
    omega
  · simp

/-- `hn_scraper.get_comments(story, max_depth=2, current_depth=0)`: iterate
over `story["kids"][:20]`. -/
def get_comments (story : HNItem) (max_depth : Nat := 2) (current_depth : Nat := 0) :
    List HNItem :=
  get_comments_kids (story.kids.take 20) max_depth current_depth

/-- The items reachable from `story` by descending at most `d` levels, taking
only the first 20 children at each level. -/
def reach : Nat → HNItem → List HNItem
  | 0, _ => []
  | d + 1, item => (item.kids.take 20).flatMap fun kid => kid :: reach d kid

/-- Everything `get_comments_kids` returns lies within `m - c` further levels
below the listed children. -/
theorem get_comments_kids_reach : ∀ d : Nat, ∀ (l : List HNItem) (m c : Nat),
    m - c = d → c ≤ m →
    ∀ x ∈ get_comments_kids l m c, x ∈ l.flatMap fun kid => kid :: reach d kid := by
  intro d
  induction d with
  | zero =>
    intro l m c hd hc
    induction l with
    | nil => intro x hx; simp [get_comments_kids] at hx
    | cons kid rest ih =>
      intro x hx
      simp only [get_comments_kids, List.mem_append] at hx
      rcases hx with hx | hx
      · have hcm : ¬ c < m := by omega
        rw [if_neg hcm] at hx
        by_cases hk : kid.type = "comment" ∧ kid.deleted = false
        · rw [if_pos hk] at hx
          simp at hx
          simp [hx]
        · rw [if_neg hk] at hx
          simp at hx
      · have := ih x hx
        simp only [List.flatMap_cons, List.mem_append]
        right
        exact this
  | succ d ihd =>
    intro l m c hd hc
    induction l with
    | nil => intro x hx; simp [get_comments_kids] at hx
    | cons kid rest ih =>
      intro x hx
      simp only [get_comments_kids, List.mem_append] at hx
      rcases hx with hx | hx
      · by_cases hk : kid.type = "comment" ∧ kid.deleted = false
        · rw [if_pos hk] at hx
          have hcm : c < m := by omega
          rw [if_pos hcm] at hx
          simp only [List.mem_cons] at hx
          rcases hx with hx | hx
          · simp [hx]
          · have hrec := ihd (kid.kids.take 20) m (c + 1) (by omega) (by omega) x hx
            simp only [List.flatMap_cons, List.mem_append, List.mem_cons]
            left
            right
            show x ∈ reach (d + 1) kid
            simp only [reach]
            exact hrec
        · rw [if_neg hk] at hx
          simp at hx
      · have := ih x hx
        simp only [List.flatMap_cons, List.mem_append]
        right
        exact this

/-- C7 amended: with its default arguments, the HN comment walk visits at
most the first 20 children at each level and returns only comments nested at
most three levels below the story: every returned comment is reachable by
descending at most 3 levels, 20-children wide.  (The depth counter stops
further recursion at depth 2, but the children of depth-2 comments — i.e.
depth-3 comments — are still collected and returned.) -/
theorem get_comments_reach_bound (story : HNItem) (x : HNItem)
    (hx : x ∈ get_comments story 2 0) : x ∈ reach 3 story := by
  have h := get_comments_kids_reach 2 (story.kids.take 20) 2 0 rfl (by omega) x hx
  simpa [reach] using h

/-- A depth-3 chain: `story0` has comment `c1item`, which has comment
`c2item`, which has comment `c3item`. -/
def c3item : HNItem := .mk 4 "comment" false "" "so frustrating" 0 0 []

def c2item : HNItem := .mk 3 "comment" false "" "mid" 0 0 [c3item]

def c1item : HNItem := .mk 2 "comment" false "" "top" 0 0 [c2item]

def story0 : HNItem := .mk 1 "story" false "t" "" 0 3 [c1item]

/-- C7 counterexample: `get_comments` with its default arguments returns
`c3item`, a comment nested three levels under the story — contradicting the
claim that no comment nested more than two levels under the story is ever
returned. -/
theorem get_comments_depth_three_returned :
    get_comments story0 2 0 = [c1item, c2item, c3item]
    ∧ c3item ∈ (story0.kids.flatMap HNItem.kids).flatMap HNItem.kids := by
  constructor
  · simp [get_comments, get_comments_kids, story0, c1item, c2item, c3item,
      HNItem.kids, HNItem.type, HNItem.deleted]
  · simp [story0, c1item, c2item, c3item, HNItem.kids]

/-- C7 witness: a concrete instantiation of the amended bound. -/
theorem get_comments_reach_bound_witness :
    c3item ∈ get_comments story0 2 0 ∧ c3item ∈ reach 3 story0 := by
  have hmem : c3item ∈ get_comments story0 2 0 := by
    simp [get_comments, get_comments_kids, story0, c1item, c2item, c3item,
      HNItem.kids, HNItem.type, HNItem.deleted]
  exact ⟨hmem, get_comments_reach_bound story0 c3item hmem⟩

/-! ## The extractors -/

theorem string_mk_length (l : List Char) : (String.mk l).length = l.length := rfl

theorem pySlice_length_le (s : String) (n : Nat) : (pySlice s n).length ≤ n := by
  rw [pySlice, string_mk_length, List.length_take]
  omega

/-- `contains_pain_signal` returns `true` exactly when its match list is
non-empty (shared helper). -/
theorem cps_true_iff (t : String) :
    (reddit_scraper.contains_pain_signal t).1 = true
      ↔ (reddit_scraper.contains_pain_signal t).2 ≠ [] := by
  rw [reddit_cps_eq]
  simp [List.length_pos]

/-- `hn_scraper.scan_hacker_news`, over the list of successfully fetched
story items (the union of top/new/ask ids has no defined order, so an
arbitrary story list is quantified over). -/
def scan_hacker_news (stories : List HNItem) : List Opportunity :=
  stories.flatMap fun story =>
    let title := story.title
    let text := story.text
    let full_text := title ++ " " ++ text
    let hp := hn_scraper.contains_pain_signal (some full_text)
    let industries := hn_scraper.identify_industry (some full_text)
    (if hp.1 then
      [{ source := "hackernews",
         title := title,
         text := if text = "" then "" else pySlice text 500,
         url := "https://news.ycombinator.com/item?id=" ++ toString story.id,
         score := story.score,
         num_comments := some story.descendants,
         pain_signals := hp.2,
         industries := industries,
         type := "story" }]
    else [])
    ++ (if story.descendants ≥ HN_MIN_COMMENTS then
      (get_comments story).flatMap fun comment =>
        let comment_text := comment.text
        let cps := hn_scraper.contains_pain_signal (some comment_text)
        if cps.1 then
          [{ source := "hackernews",
             title := "Comment on: " ++ pySlice title 50,
             text := if comment_text = "" then "" else pySlice comment_text 500,
             url := "https://news.ycombinator.com/item?id=" ++ toString comment.id,
             score := 0,
             pain_signals := cps.2,
             industries := hn_scraper.identify_industry (some comment_text),
             type := "comment" }]
        else []
    else [])

/-- A fetched Reddit comment, as flattened by `extract_comments`. -/
structure RedditComment where
  body : String
  score : Int
  author : String
deriving DecidableEq

/-- A fetched Reddit post.  `comments` is the flattened comment list that
`get_post_comments(permalink)` would return for it. -/
structure RedditPost where
  title : String
  selftext : String
  permalink : String
  score : Int
  num_comments : Int
  comments : List RedditComment
deriving DecidableEq

/-- `reddit_scraper.scan_reddit`, with the network modelled by the function
`getPosts` from subreddit name to its fetched "hot" posts. -/
def scan_reddit (getPosts : String → List RedditPost) : List Opportunity :=
  SUBREDDITS.flatMap fun subreddit =>
    (getPosts subreddit).flatMap fun post =>
      let title := post.title
      let selftext := post.selftext
      let permalink := post.permalink
      let full_text := title ++ " " ++ selftext
      let hp := reddit_scraper.contains_pain_signal full_text
      let industries := reddit_scraper.identify_industry full_text
      (if hp.1 then
        [{ source := "reddit",
           subreddit := some subreddit,
           title := title,
           text := if selftext = "" then "" else pySlice selftext 500,
           url := "https://reddit.com" ++ permalink,
           score := post.score,
           num_comments := some post.num_comments,
           pain_signals := hp.2,
           industries := industries,
           type := "post" }]
      else [])
      ++ (if post.num_comments > 5 then
        post.comments.flatMap fun comment =>
          let body := comment.body
          let cps := reddit_scraper.contains_pain_signal body
          if cps.1 ∧ comment.score ≥ 3 then
            [{ source := "reddit",
               subreddit := some subreddit,
               title := "Comment on: " ++ pySlice title 50,
               text := pySlice body 500,
               url := "https://reddit.com" ++ permalink,
               score := comment.score,
               pain_signals := cps.2,
               industries := reddit_scraper.identify_industry body,
               type := "comment" }]
          else []
      else [])

/-- Invariant helper for the HN extractor. -/
theorem scan_hn_invariant (stories : List HNItem) (r : Opportunity)
    (hr : r ∈ scan_hacker_news stories) :
    r.pain_signals ≠ [] ∧ r.text.length ≤ 500 := by
  simp only [scan_hacker_news, List.mem_flatMap, List.mem_append] at hr
  obtain ⟨story, -, hr⟩ := hr
  rcases hr with hr | hr
  · split at hr
    case isTrue hps =>
      simp only [List.mem_singleton] at hr
      subst hr
      refine ⟨?_, ?_⟩
      · rw [hn_cps_eq_reddit] at hps ⊢
        exact (cps_true_iff _).mp hps
      · split
        · simp [string_mk_length]
        · exact pySlice_length_le _ _
    case isFalse => simp at hr
  · split at hr
    case isFalse => simp at hr
    case isTrue =>
      simp only [List.mem_flatMap] at hr
      obtain ⟨comment, -, hr⟩ := hr
      split at hr
      case isFalse => simp at hr
      case isTrue hps =>
        simp only [List.mem_singleton] at hr
        subst hr
        refine ⟨?_, ?_⟩
        · rw [hn_cps_eq_reddit] at hps ⊢
          exact (cps_true_iff _).mp hps
        · split
          · simp [string_mk_length]
          · exact pySlice_length_le _ _

/-- Invariant helper for the Reddit extractor. -/
theorem scan_reddit_invariant (getPosts : String → List RedditPost) (r : Opportunity)
    (hr : r ∈ scan_reddit getPosts) :
    r.pain_signals ≠ [] ∧ r.text.length ≤ 500 := by
  simp only [scan_reddit, List.mem_flatMap, List.mem_append] at hr
  obtain ⟨subreddit, -, post, -, hr⟩ := hr
  rcases hr with hr | hr
  · split at hr
    case isTrue hps =>
      simp only [List.mem_singleton] at hr
      subst hr
      refine ⟨(cps_true_iff _).mp hps, ?_⟩
      split
      · simp [string_mk_length]
      · exact pySlice_length_le _ _
    case isFalse => simp at hr
  · split at hr
    case isFalse => simp at hr
    case isTrue =>
      simp only [List.mem_flatMap] at hr
      obtain ⟨comment, -, hr⟩ := hr
      split at hr
      case isFalse => simp at hr
      case isTrue hps =>
        simp only [List.mem_singleton] at hr
        subst hr
        exact ⟨(cps_true_iff _).mp hps.1, pySlice_length_le _ _⟩

/-- C8: every record yielded by either extractor has at least one pain
signal and a text field of at most 500 characters, for all fetched inputs
(regardless of industry matches). -/
theorem scan_records_invariant (stories : List HNItem)
    (getPosts : String → List RedditPost) (r : Opportunity)
    (hr : r ∈ scan_hacker_news stories ∨ r ∈ scan_reddit getPosts) :
    r.pain_signals ≠ [] ∧ r.text.length ≤ 500 := by
  rcases hr with hr | hr
  · exact scan_hn_invariant stories r hr
  · exact scan_reddit_invariant getPosts r hr

/-- A concrete story whose title matches a pain signal and a finance
keyword. -/
def wStory : HNItem :=
  .mk 7 "story" false "Ask HN: I wish there was a tool for bookkeeping" "" 12 0 []

/-- The record `scan_hacker_news` yields for `wStory`. -/
def wRec : Opportunity :=
  { source := "hackernews",
    title := "Ask HN: I wish there was a tool for bookkeeping",
    text := "",
    url := "https://news.ycombinator.com/item?id=7",
    score := 12,
    num_comments := some 0,
    pain_signals := ["I wish there was"],
    industries := ["finance"],
    type := "story" }

/-- C8 witness: the invariant instantiated on a concrete extractor run. -/
theorem scan_records_invariant_witness :
    (wRec ∈ scan_hacker_news [wStory] ∨ wRec ∈ scan_reddit fun _ => [])
    ∧ (wRec.pain_signals ≠ [] ∧ wRec.text.length ≤ 500) :=
  ⟨Or.inl (by decide),
   scan_records_invariant [wStory] (fun _ => []) wRec (Or.inl (by decide))⟩

/-! ## CSV/JSON persistence (main.py `save_results`)

The `csv` and `json` stdlib modules are external collaborators; the CSV file
is modelled as the list of rows handed to `csv.DictWriter` and the JSON file
as the record list handed to `json.dump`.  `csv.DictWriter` is modelled by
its documented contract: with the default `extrasaction="raise"`, a row dict
containing a key not in `fieldnames` raises `ValueError`; a missing key is
filled with the rest value `""`. -/

def csv_fieldnames : List String :=
  ["priority_score", "source", "title", "text", "url", "score",
   "pain_signals", "industries", "type"]

/-- The keys present in a record dict (optional fields contribute a key only
when present). -/
def opp_dict_keys (opp : Opportunity) : List String :=
  ["source"]
  ++ (match opp.subreddit with | some _ => ["subreddit"] | none => [])
  ++ ["title", "text", "url", "score"]
  ++ (match opp.num_comments with | some _ => ["num_comments"] | none => [])
  ++ ["pain_signals", "industries", "type"]
  ++ (match opp.priority_score with | some _ => ["priority_score"] | none => [])

/-- The stringified CSV cell for one fieldname of the row dict
`{**opp, "pain_signals": ", ".join(...), "industries": ", ".join(...)}`. -/
def opp_csv_value (opp : Opportunity) (field : String) : String :=
  if field = "priority_score" then
    match opp.priority_score with | some n => toString n | none => ""
  else if field = "source" then opp.source
  else if field = "title" then opp.title
  else if field = "text" then opp.text
  else if field = "url" then opp.url
  else if field = "score" then toString opp.score
  else if field = "pain_signals" then String.intercalate ", " opp.pain_signals
  else if field = "industries" then String.intercalate ", " opp.industries
  else opp.type

/-- `csv.DictWriter.writerow` on one record's row dict. -/
def writerow (opp : Opportunity) : Except String (List String) :=
  let wrong_fields := (opp_dict_keys opp).filter fun k => !(csv_fieldnames.contains k)
  if wrong_fields.isEmpty then
    .ok (csv_fieldnames.map fun field => opp_csv_value opp field)
  else
    .error ("ValueError: dict contains fields not in fieldnames: "
      ++ String.intercalate ", " wrong_fields)

/-- `main.save_results`: header plus one CSV row per record (header written
only when the list is nonempty), and the record list dumped as JSON. -/
def save_results (opportunities : List Opportunity) :
    Except String (List (List String) × List Opportunity) := do
  let rows ← opportunities.mapM writerow
  return (if opportunities.isEmpty then [] else csv_fieldnames :: rows, opportunities)

/-- C9: `save_results` does not even succeed on the records the program
produces — any record carrying a `num_comments` (or `subreddit`) key, as
every story/post record does, makes `csv.DictWriter.writerow` raise
`ValueError`, because those keys are missing from the configured
`fieldnames` and `extrasaction` defaults to `"raise"`.  Evaluated here on
the scored record that `scan_hacker_news` yields for `wStory`. -/
theorem save_results_extra_fields_error :
    save_results [with_priority wRec]
      = .error "ValueError: dict contains fields not in fieldnames: num_comments" := by
  rfl

/-! ## The conversational agent (agent/saas_agent.py) -/

/-- Python `str.title()`: uppercase the first letter of each word, lowercase
the rest; word boundaries at non-alphabetic characters. -/
def pyTitleAux : Bool → List Char → List Char
  | _, [] => []
  | atWordStart, c :: rest =>
    if c.isAlpha then
      (if atWordStart then c.toUpper else c.toLower) :: pyTitleAux false rest
    else
      c :: pyTitleAux true rest

def pyTitle (s : String) : String := ⟨pyTitleAux true s.data⟩

/-- The per-record block of `format_opportunities` (1-based index `i`). -/
def format_opp_lines (i : Nat) (opp : Opportunity) : List String :=
  ["**#" ++ toString i ++ " [Score: " ++ toString (opp.priority_score.getD 0) ++ "]**",
   "📌 " ++ opp.title]
  ++ (if opp.text = "" then [] else ["   " ++ pySlice opp.text 200 ++ "..."])
  ++ ["🔍 Signals: " ++ String.intercalate ", " (opp.pain_signals.take 3)]
  ++ (if opp.industries.isEmpty then []
      else ["🏢 Industries: " ++ String.intercalate ", " opp.industries])
  ++ ["🔗 " ++ opp.url, ""]

/-- `format_opportunities(opportunities, limit)`. -/
def format_opportunities (opportunities : List Opportunity) (limit : Nat := 10) : String :=
  if opportunities.isEmpty then "No opportunities found matching your criteria."
  else
    String.intercalate "\n"
      (("Found " ++ toString opportunities.length ++ " opportunities:\n")
        :: (List.enumFrom 1 (opportunities.take limit)).flatMap
            fun p => format_opp_lines p.1 p.2)

/-- `industry_counts[ind] = industry_counts.get(ind, 0) + 1` over an
insertion-ordered dict, modelled as an association list. -/
def bump_count : List (String × Nat) → String → List (String × Nat)
  | [], k => [(k, 1)]
  | (k0, v) :: rest, k =>
    if k0 = k then (k0, v + 1) :: rest else (k0, v) :: bump_count rest k

def industry_counts (opportunities : List Opportunity) : List (String × Nat) :=
  opportunities.foldl (fun acc opp => opp.industries.foldl bump_count acc) []

/-- `get_industry_summary(opportunities)` (stable sort descending by count). -/
def get_industry_summary (opportunities : List Opportunity) : String :=
  let counts := industry_counts opportunities
  if counts.isEmpty then "No industry-specific opportunities found."
  else
    String.intercalate "\n" ("**Industry Breakdown:**"
      :: (counts.mergeSort fun x y => decide (y.2 ≤ x.2)).map
          fun p => "  • " ++ p.1 ++ ": " ++ toString p.2 ++ " opportunities")

/-- The static explain response of `process_query`. -/
def explain_response : String :=
  "**SaaS Opportunity Bot** 🚀\n\nI scan Hacker News for pain points that indicate SaaS opportunities in high-value industries.\n\n**What I look for:**\n• Pain signals like \"I wish there was...\", \"I\x27d pay for...\", \"so frustrating\"\n• Industries: Finance, Legal, Healthcare, Real Estate, SaaS/B2B, Agencies, E-commerce, Developers\n\n**Commands you can try:**\n• \"Scan for opportunities\" - Run a fresh scan\n• \"Find fintech opportunities\" - Filter by industry\n• \"Analyze the top 10\" - Get AI insights\n• \"Show me healthcare pain points\" - Industry-specific scan\n• \"List industries\" - See all tracked industries\n• \"List signals\" - See pain point signals I detect"

/-- The `list_industries` response. -/
def list_industries_response : String :=
  String.intercalate "\n" ("**Tracked Industries:**"
    :: INDUSTRIES.map fun p =>
        "• **" ++ pyTitle ⟨underscoreToSpace p.1.data⟩ ++ "**: "
          ++ String.intercalate ", " (p.2.take 5) ++ "...")

/-- The `list_signals` response. -/
def list_signals_response : String :=
  String.intercalate "\n" ("**Pain Point Signals I Detect:**"
    :: (List.enumFrom 1 PAIN_SIGNALS).map
        fun p => toString p.1 ++ ". \"" ++ p.2 ++ "\"")

/-- Models `json.dumps` (at the json stdlib boundary) of the 15-record
summary handed to the LLM.  Its exact text is not relied upon by any
theorem. -/
def json_str (s : String) : String := "\"" ++ s ++ "\""

def json_str_list (l : List String) : String :=
  "[" ++ String.intercalate ", " (l.map json_str) ++ "]"

def opp_summary_entry (o : Opportunity) : String :=
  "\x7b\"title\": " ++ json_str o.title
  ++ ", \"text\": " ++ json_str (pySlice o.text 300)
  ++ ", \"pain_signals\": " ++ json_str_list o.pain_signals
  ++ ", \"industries\": " ++ json_str_list o.industries
  ++ ", \"score\": " ++ toString (o.priority_score.getD 0)
  ++ ", \"url\": " ++ json_str o.url ++ "\x7d"

def opp_summary_json (opportunities : List Opportunity) : String :=
  "[" ++ String.intercalate ", " ((opportunities.take 15).map opp_summary_entry) ++ "]"

/-- The system prompt of the analyze branch. -/
def analyze_system_prompt : String :=
  "You are a SaaS opportunity analyst. Analyze the following pain points found on Hacker News and provide:\n1. Top 3-5 most promising SaaS ideas based on these pain points\n2. Market size potential (small/medium/large)\n3. Competition level (low/medium/high based on your knowledge)\n4. Quick MVP suggestion for the top opportunity\n\nBe specific, actionable, and entrepreneurial. Format with markdown."

/-- `scan_cache[session_id] = opportunities` on the insertion-ordered dict,
modelled as an association list: update in place or append. -/
def dict_set : List (String × List Opportunity) → String → List Opportunity
    → List (String × List Opportunity)
  | [], k, v => [(k, v)]
  | (k0, v0) :: rest, k, v =>
    if k0 = k then (k0, v) :: rest else (k0, v0) :: dict_set rest k v

/-- `process_query(query, session_id)`.  The LLM call is the external
collaborator `llm` (system prompt, user message ↦ response text); the HN
extractor output consumed by `run_scan` is `extracted`; the shared
`scan_cache` is passed and returned explicitly.  The returned triple is
(response text, new cache, number of `run_scan` invocations). -/
def process_query (llm : String → String → String) (extracted : List Opportunity)
    (query : String) (session_id : String)
    (scan_cache : List (String × List Opportunity)) :
    String × List (String × List Opportunity) × Nat :=
  let intent := parse_user_intent query
  if intent.action = "explain" then
    (explain_response, scan_cache, 0)
  else if intent.action = "list_industries" then
    (list_industries_response, scan_cache, 0)
  else if intent.action = "list_signals" then
    (list_signals_response, scan_cache, 0)
  else
    let opportunities := run_scan extracted intent.industry_filter intent.limit
    let scan_cache := dict_set scan_cache session_id opportunities
    if intent.action = "analyze" then
      if opportunities.isEmpty then
        ("No opportunities found to analyze. Try running a scan first.",
         scan_cache, 1)
      else
        let opp_summary := opp_summary_json opportunities
        let analysis := llm analyze_system_prompt
          ("Analyze these opportunities:\n" ++ opp_summary)
        ("**AI Analysis of " ++ toString opportunities.length ++ " Opportunities**\n\n"
          ++ analysis ++ "\n\n---\n*Based on live scan of Hacker News*",
         scan_cache, 1)
    else
      (format_opportunities opportunities intent.limit
        ++ "\n\n" ++ get_industry_summary opportunities
        ++ "\n\n💡 *Say \"analyze\" for AI insights on these opportunities*",
       scan_cache, 1)

/-- C10: a query parsed to action `"explain"`, `"list_industries"` or
`"list_signals"` is answered without running any scan and leaves the shared
`scan_cache` completely unchanged; a query parsed to `"scan"` or `"analyze"`
runs exactly one scan and writes its ranked result to
`scan_cache[session_id]`. -/
theorem process_query_cache_frame (llm : String → String → String)
    (extracted : List Opportunity) (query session_id : String)
    (scan_cache : List (String × List Opportunity)) :
    (((parse_user_intent query).action = "explain"
        ∨ (parse_user_intent query).action = "list_industries"
        ∨ (parse_user_intent query).action = "list_signals") →
      (process_query llm extracted query session_id scan_cache).2.1 = scan_cache
      ∧ (process_query llm extracted query session_id scan_cache).2.2 = 0)
    ∧ (((parse_user_intent query).action = "scan"
        ∨ (parse_user_intent query).action = "analyze") →
      (process_query llm extracted query session_id scan_cache).2.1
        = dict_set scan_cache session_id
            (run_scan extracted (parse_user_intent query).industry_filter
              (parse_user_intent query).limit)
      ∧ (process_query llm extracted query session_id scan_cache).2.2 = 1) := by
  constructor
  · intro h
    rcases h with h | h | h <;> simp [process_query, h]
  · intro h
    rcases h with h | h <;>
      simp [process_query, h] <;> (split <;> simp)

/-- C10 witness: `"help"` parses to explain and leaves an empty cache
untouched with no scan; `"scan now"` parses to scan and writes the session
entry. -/
theorem process_query_cache_frame_witness :
    ((parse_user_intent "help").action = "explain"
      ∨ (parse_user_intent "help").action = "list_industries"
      ∨ (parse_user_intent "help").action = "list_signals")
    ∧ (process_query (fun _ _ => "") [] "help" "s1" []).2.1 = []
    ∧ (process_query (fun _ _ => "") [] "help" "s1" []).2.2 = 0
    ∧ ((parse_user_intent "scan now").action = "scan"
      ∨ (parse_user_intent "scan now").action = "analyze")
    ∧ (process_query (fun _ _ => "") [] "scan now" "s2" []).2.1
        = dict_set [] "s2"
            (run_scan [] (parse_user_intent "scan now").industry_filter
              (parse_user_intent "scan now").limit) :=
  ⟨Or.inl (by decide),
   ((process_query_cache_frame (fun _ _ => "") [] "help" "s1" []).1
      (Or.inl (by decide))).1,
   ((process_query_cache_frame (fun _ _ => "") [] "help" "s1" []).1
      (Or.inl (by decide))).2,
   Or.inl (by decide),
   ((process_query_cache_frame (fun _ _ => "") [] "scan now" "s2" []).2
      (Or.inl (by decide))).1⟩

end SaaSBot
